import Mathlib

/-!
Shallow embedding of the `syslog_ibmi` repository: an incremental
cursor-based poller that tails the IBM i audit journal through
`QSYS2.DISPLAY_JOURNAL` and forwards each entry to a syslog sink.

The embedding follows `src/testing_python_20250904.py`
(class `IbmiJournalMonitor` and the `__main__` startup block) and, for the
severity table, also `src/testing.py` (`fetch_and_log_journal_entries`).
The remote query backend is modelled as a list of rows (the retained
journal entries); the SQL `WHERE` clause built in `_process_one_batch`
becomes a Boolean filter over that list and the `ORDER BY` clause becomes
a sort by `(receiver_name, sequence_number)`.
-/

namespace SyslogIbmi

/- Python `logging` severity level constants, as used by the sources. -/
namespace logging

def CRITICAL : Nat := 50

def ERROR : Nat := 40

def WARNING : Nat := 30

def INFO : Nat := 20

def DEBUG : Nat := 10

end logging

/-- One row produced by `QSYS2.DISPLAY_JOURNAL(...)` as selected in
`_process_one_batch` (line 77): the syslog rendering columns plus the
position-identifying pair `(receiver_name, sequence_number)`.
`syslog_event` is nullable in SQL, hence `Option`. -/
structure Row where
  syslog_facility : Int
  syslog_severity : Int
  syslog_event : Option String
  journal_entry_type : String
  receiver_name : String
  sequence_number : Nat
  deriving DecidableEq, Repr

/-- The position key of a row: `(receiver_name, sequence_number)`. -/
def rowKey (row : Row) : String × Nat :=
  (row.receiver_name, row.sequence_number)

/-- Lexicographic code-point comparison of two character lists: the model
of the string collation used by the backend for `receiver_name` in both
the `>` predicate and the `ORDER BY` clause. -/
def charsLtb : List Char → List Char → Bool
  | [], [] => false
  | [], _ :: _ => true
  | _ :: _, [] => false
  | a :: as, b :: bs => decide (a < b) || (decide (a = b) && charsLtb as bs)

/-- Lexicographic comparison of strings. -/
def strLtb (s t : String) : Bool := charsLtb s.data t.data

/-- Strict receiver-then-sequence order on position keys, matching the SQL
predicate `receiver_name > ? OR (receiver_name = ? AND sequence_number > ?)`
with the cursor on the left (line 87). -/
def keyLt (a b : String × Nat) : Prop :=
  strLtb a.1 b.1 = true ∨ (a.1 = b.1 ∧ a.2 < b.2)

/-- Reflexive receiver-then-sequence order on position keys, matching the
SQL `ORDER BY receiver_name, sequence_number` (line 98). -/
def keyLe (a b : String × Nat) : Prop :=
  strLtb a.1 b.1 = true ∨ (a.1 = b.1 ∧ a.2 ≤ b.2)

instance keyLt.instDecidableRel : DecidableRel keyLt := fun a b =>
  decidable_of_iff (strLtb a.1 b.1 = true ∨ (a.1 = b.1 ∧ a.2 < b.2)) Iff.rfl

instance keyLe.instDecidableRel : DecidableRel keyLe := fun a b =>
  decidable_of_iff (strLtb a.1 b.1 = true ∨ (a.1 = b.1 ∧ a.2 ≤ b.2)) Iff.rfl

/-- Row comparison used by the `ORDER BY` clause. -/
def rowLe (a b : Row) : Prop := keyLe (rowKey a) (rowKey b)

/-- Strict row comparison on position keys. -/
def rowLt (a b : Row) : Prop := keyLt (rowKey a) (rowKey b)

instance rowLe.instDecidableRel : DecidableRel rowLe := fun a b =>
  keyLe.instDecidableRel (rowKey a) (rowKey b)

instance rowLt.instDecidableRel : DecidableRel rowLt := fun a b =>
  keyLt.instDecidableRel (rowKey a) (rowKey b)

/-- In-memory bookmark state of one `IbmiJournalMonitor`
(`self.last_receiver_name`, `self.last_sequence_number`, lines 53-54;
both initialised to `None` on every program start). -/
structure MonitorState where
  last_receiver_name : Option String
  last_sequence_number : Option Nat
  deriving DecidableEq, Repr

/-- The initial state of a monitor (`None`/`None`, lines 53-54). -/
def initialState : MonitorState := ⟨none, none⟩

/-- Python truthiness of an `Optional[str]`: `None` and `""` are falsy. -/
def optStrTruthy : Option String → Bool
  | none => false
  | some s => !s.isEmpty

/-- Python truthiness of an `Optional[int]`: `None` and `0` are falsy. -/
def optNatTruthy : Option Nat → Bool
  | none => false
  | some n => decide (n ≠ 0)

/-- The cursor-present test of line 86:
`if self.last_receiver_name and self.last_sequence_number:`. -/
def cursorTruthy (st : MonitorState) : Bool :=
  optStrTruthy st.last_receiver_name && optNatTruthy st.last_sequence_number

/-- The SQL predicate added at line 87 when the cursor test passes:
`receiver_name > ? OR (receiver_name = ? AND sequence_number > ?)`, with
parameters `(r, r, n)` taken from the stored bookmark (line 88). -/
def sqlAfterCursor (r : String) (n : Nat) (row : Row) : Bool :=
  strLtb r row.receiver_name ||
    (decide (row.receiver_name = r) && decide (n < row.sequence_number))

/-- The cursor clause of the generated `WHERE`: present only when the
truthiness test of line 86 passes, otherwise no restriction. -/
def cursorClause (st : MonitorState) (row : Row) : Bool :=
  if cursorTruthy st then
    sqlAfterCursor (st.last_receiver_name.getD "") (st.last_sequence_number.getD 0) row
  else true

/-- The entry-type clause of the generated `WHERE`
(`journal_entry_type IN (...)`, lines 90-93): added only when the parsed
`journal_types` list is non-empty. -/
def typeClause (types : List String) (row : Row) : Bool :=
  if types.isEmpty then true else decide (row.journal_entry_type ∈ types)

/-- The full `WHERE` clause of the query built in `_process_one_batch`
(lines 83-96): `syslog_event IS NOT NULL`, then the optional cursor
predicate, then the optional entry-type predicate. -/
def rowPasses (st : MonitorState) (types : List String) (row : Row) : Bool :=
  row.syslog_event.isSome && cursorClause st row && typeClause types row

/-- Python `str.split(sep)` on a character list for a one-character
separator: splits at every occurrence of `sep`, keeping empty pieces. -/
def splitChars (sep : Char) : List Char → List (List Char)
  | [] => [[]]
  | c :: cs =>
      match splitChars sep cs with
      | [] => [[c]]
      | w :: ws => if c = sep then [] :: w :: ws else (c :: w) :: ws

/-- Python `str.strip()` on a character list: drop whitespace from both
ends. -/
def stripChars (l : List Char) : List Char :=
  (((l.dropWhile Char.isWhitespace).reverse.dropWhile Char.isWhitespace).reverse)

/-- The parsing of the configured entry-type filter in `__init__`
(line 49): split the comma-separated string, strip each item, and drop
items that are empty after stripping
(`[t.strip() for t in journal_types.split(',') if t.strip()]`). -/
def journal_types_of (s : String) : List String :=
  (((splitChars ',' s.data).map (fun w => String.mk (stripChars w))).filter
    (fun t => !t.isEmpty))

/-- One fetch against the backend, modelling the query of lines 76-105:
the retained `table` filtered by the generated `WHERE` clause and ordered
by `receiver_name, sequence_number` (a stable sort, as SQL may return any
order consistent with the `ORDER BY` key). -/
def fetchBatch (table : List Row) (st : MonitorState) (types : List String) :
    List Row :=
  List.insertionSort rowLe (table.filter (rowPasses st types))

/-- The success path of `_process_one_batch` (lines 100-130): every row of
the batch is forwarded to the sink in order; if the batch was empty the
function returns with the state unchanged (lines 122-124), otherwise the
bookmark is set to the `(receiver_name, sequence_number)` of the last
processed row (lines 126-128). Returns the new state and the list of rows
forwarded to the sink. -/
def processOneBatch (table : List Row) (types : List String)
    (st : MonitorState) : MonitorState × List Row :=
  let batch := fetchBatch table st types
  match batch.getLast? with
  | none => (st, [])
  | some last =>
      (⟨some last.receiver_name, some last.sequence_number⟩, batch)

/-- Fault injected into one cycle of `_process_one_batch`:
`ok` = no error; `connection` = `pyodbc.connect` raises (lines 61-66),
nothing is queried or forwarded; `query` = `cursor.execute` raises
(line 105, caught at line 132) before any row is produced; `delivery k` =
an error is raised inside the row loop (lines 110-120, caught at line 132)
after `k` rows have already been forwarded to the sink. -/
inductive Fault where
  | ok : Fault
  | connection : Fault
  | query : Fault
  | delivery : Nat → Fault
  deriving DecidableEq, Repr

/-- One full cycle of `_process_one_batch` under a fault: in every error
case the `except`/early-return paths are reached before the bookmark
assignment of lines 127-128, so the state is returned unchanged; in the
`delivery k` case the first `k` rows of the batch were already forwarded
when the error was raised. -/
def runCycle (table : List Row) (types : List String) (f : Fault)
    (st : MonitorState) : MonitorState × List Row :=
  match f with
  | .ok => processOneBatch table types st
  | .connection => (st, [])
  | .query => (st, [])
  | .delivery k => (st, (fetchBatch table st types).take k)

/-- The class-level severity table `SEVERITY_MAP` of
`testing_python_20250904.py` (lines 28-37), identical to the local
`severity_map` of `testing.py` (lines 23-32). -/
def SEVERITY_MAP : List (Int × Nat) :=
  [(0, logging.CRITICAL), (1, logging.CRITICAL), (2, logging.CRITICAL),
   (3, logging.ERROR), (4, logging.WARNING),
   (5, logging.INFO), (6, logging.INFO),
   (7, logging.DEBUG)]

/-- The lookup `SEVERITY_MAP.get(syslog_severity, logging.INFO)`
(line 116 of `testing_python_20250904.py`, line 62 of `testing.py`):
dictionary lookup with default `logging.INFO` for unmapped codes. -/
def severityGet (s : Int) : Nat :=
  (SEVERITY_MAP.lookup s).getD logging.INFO

/-- Backend invariant of the retained journal (spec §3: a receiver identity
plus a sequence number; IBM i journal sequence numbers start at 1 and
receiver names are non-empty): every row carries a non-empty receiver name
and a non-zero sequence number. -/
def validTable (t : List Row) : Prop :=
  ∀ row ∈ t, row.receiver_name ≠ "" ∧ row.sequence_number ≠ 0

instance validTable.instDecidable (t : List Row) : Decidable (validTable t) :=
  List.decidableBAll _ t

/-- Invariant tying the bookmark state to the rows delivered so far: the
delivered log is strictly increasing, and the state is either the initial
`None`/`None` with nothing delivered, or holds a truthy cursor bounding
everything delivered. -/
def stateOK (st : MonitorState) (delivered : List Row) : Prop :=
  delivered.Pairwise rowLt ∧
    match st.last_receiver_name, st.last_sequence_number with
    | none, none => delivered = []
    | some r, some n =>
        r ≠ "" ∧ n ≠ 0 ∧ ∀ e ∈ delivered, keyLe (rowKey e) (r, n)
    | _, _ => False

/-- Consecutive cycles of `_process_one_batch` on one host with no fault:
`tables i` is the table retained by the backend at cycle `i`; the result is
the final state and the concatenation of the delivered batches. -/
def runCycles (tables : Nat → List Row) (types : List String) :
    Nat → Nat → MonitorState → MonitorState × List Row
  | 0, _, st => (st, [])
  | n + 1, i, st =>
      ((runCycles tables types n (i + 1)
          (processOneBatch (tables i) types st).1).1,
       (processOneBatch (tables i) types st).2 ++
         (runCycles tables types n (i + 1)
           (processOneBatch (tables i) types st).1).2)

/-- The monitoring loop of `start` (lines 139-146):
`while not shutdown_event.is_set(): self._process_one_batch();
shutdown_event.wait(self.interval)`. `flag k` is the value the shutdown
event is observed to have at the `k`-th top-of-loop check, `tables k` the
backend table and `faults k` the fault injected during cycle `k`. `fuel`
bounds the number of loop iterations modelled; the result is
`some (k, st)` when the loop observed the shutdown signal at check `k` and
exited with state `st`, and `none` when the loop was still running after
`fuel` checks. -/
def runLoop (flag : Nat → Bool) (tables : Nat → List Row)
    (types : List String) (faults : Nat → Fault) :
    Nat → Nat → MonitorState → Option (Nat × MonitorState)
  | 0, _, _ => none
  | fuel + 1, k, st =>
      if flag k then some (k, st)
      else
        runLoop flag tables types faults fuel (k + 1)
          (runCycle (tables k) types (faults k) st).1

/-- One per-host configuration as collected by the `__main__` discovery
loop (lines 162-184). -/
structure HostConfig where
  host : String
  user : String
  password : String
  driver : String
  journal_lib : String
  journal_name : String
  journal_types : String
  deriving DecidableEq, Repr

/-- Truthiness of `os.getenv(key)`: unset or empty is falsy. -/
def envTruthy (env : String → Option String) (key : String) : Bool :=
  optStrTruthy (env key)

/-- Python `os.getenv(key, dflt)`: the default applies only when the
variable is unset. -/
def getenvD (env : String → Option String) (key dflt : String) : String :=
  (env key).getD dflt

/-- The contiguous-index host discovery loop of `__main__`
(lines 161-184): starting at `index`, stop at the first index whose
`IBMI_HOST_i` is unset or empty (line 164: `if not host: break`); if
`IBMI_USER_i`, `IBMI_PASSWORD_i`, `IBMI_DRIVER_i` are not all truthy, log
and skip this index (lines 171-174); otherwise build one monitor
configuration and continue with the next index. `fuel` bounds the number
of indexes scanned (the real loop is unbounded; any fuel at least the
position of the first missing host gives the loop's exact result). -/
def discoverFrom (env : String → Option String) :
    Nat → Nat → List HostConfig
  | 0, _ => []
  | fuel + 1, index =>
      if envTruthy env ("IBMI_HOST_" ++ toString index) then
        if envTruthy env ("IBMI_USER_" ++ toString index) &&
            envTruthy env ("IBMI_PASSWORD_" ++ toString index) &&
            envTruthy env ("IBMI_DRIVER_" ++ toString index) then
          { host := (env ("IBMI_HOST_" ++ toString index)).getD ""
            user := (env ("IBMI_USER_" ++ toString index)).getD ""
            password := (env ("IBMI_PASSWORD_" ++ toString index)).getD ""
            driver := (env ("IBMI_DRIVER_" ++ toString index)).getD ""
            journal_lib :=
              getenvD env ("IBMI_JOURNAL_LIBRARY_" ++ toString index) "QSYS"
            journal_name :=
              getenvD env ("IBMI_JOURNAL_NAME_" ++ toString index) "QAUDJRN"
            journal_types :=
              getenvD env ("IBMI_JOURNAL_TYPES_" ++ toString index) "" } ::
            discoverFrom env fuel (index + 1)
        else discoverFrom env fuel (index + 1)
      else []

/-- Outcome of the `__main__` startup block after discovery
(lines 186-196): either the fatal zero-config path
(`sys.exit(1)`, line 188) or one monitor thread started per discovered
configuration (lines 193-196). -/
inductive StartupResult where
  | configError : Nat → StartupResult
  | running : List HostConfig → StartupResult
  deriving DecidableEq, Repr

/-- The startup decision of `__main__`: discover host configurations from
index 1; if none were found print the configuration error and exit with
code 1, otherwise start one monitor per configuration. -/
def mainStartup (env : String → Option String) (fuel : Nat) :
    StartupResult :=
  if (discoverFrom env fuel 1).isEmpty then StartupResult.configError 1
  else StartupResult.running (discoverFrom env fuel 1)

/-- The monitors actually started by a startup outcome: none on the fatal
path, one per discovered configuration otherwise. -/
def startedMonitors : StartupResult → List HostConfig
  | StartupResult.configError _ => []
  | StartupResult.running ms => ms

/-- Sample rows used as concrete witnesses (scenario rows of spec §8:
receiver `R1` at sequences 10-11, rollover receiver `R2` restarting at
sequence 1). -/
def rowA : Row := ⟨4, 4, some "event-a", "AF", "R1", 10⟩

def rowB : Row := ⟨4, 4, some "event-b", "AF", "R1", 11⟩

def rowC : Row := ⟨4, 5, some "event-c", "CP", "R2", 1⟩

/-- Sample row whose sequence number is `0`, exercising the truthiness
edge of the stored bookmark. -/
def rowZ : Row := ⟨4, 4, some "event-z", "AF", "R", 0⟩

/-- Environment with no variables set: zero host configurations. -/
def envEmpty : String → Option String := fun _ => none

/-- Environment configuring exactly one complete host at index 1. -/
def envOneHost : String → Option String := fun key =>
  if key = "IBMI_HOST_1" then some "h1"
  else if key = "IBMI_USER_1" then some "u1"
  else if key = "IBMI_PASSWORD_1" then some "p1"
  else if key = "IBMI_DRIVER_1" then some "d1"
  else none

theorem charsLtb_irrefl : ∀ a : List Char, charsLtb a a = false
  | [] => rfl
  | c :: cs => by simp [charsLtb, charsLtb_irrefl cs]

theorem charsLtb_trans : ∀ {a b c : List Char}, charsLtb a b = true →
    charsLtb b c = true → charsLtb a c = true
  | [], [], _, hab, _ => by simp [charsLtb] at hab
  | [], _ :: _, [], _, hbc => by simp [charsLtb] at hbc
  | [], _ :: _, _ :: _, _, _ => rfl
  | _ :: _, [], _, hab, _ => by simp [charsLtb] at hab
  | _ :: _, _ :: _, [], _, hbc => by simp [charsLtb] at hbc
  | x :: as, y :: bs, z :: cs, hab, hbc => by
      simp only [charsLtb, Bool.or_eq_true, Bool.and_eq_true,
        decide_eq_true_eq] at hab hbc ⊢
      rcases hab with h1 | ⟨h1, h1'⟩ <;> rcases hbc with h2 | ⟨h2, h2'⟩
      · exact Or.inl (lt_trans h1 h2)
      · exact Or.inl (h2 ▸ h1)
      · exact Or.inl (h1.symm ▸ h2)
      · exact Or.inr ⟨h1.trans h2, charsLtb_trans h1' h2'⟩

theorem charsLtb_trichotomy : ∀ (a b : List Char),
    charsLtb a b = true ∨ a = b ∨ charsLtb b a = true
  | [], [] => Or.inr (Or.inl rfl)
  | [], _ :: _ => Or.inl rfl
  | _ :: _, [] => Or.inr (Or.inr rfl)
  | x :: as, y :: bs => by
      rcases lt_trichotomy x y with h | h | h
      · exact Or.inl (by simp [charsLtb, h])
      · subst h
        rcases charsLtb_trichotomy as bs with h' | h' | h'
        · exact Or.inl (by simp [charsLtb, h'])
        · exact Or.inr (Or.inl (by rw [h']))
        · exact Or.inr (Or.inr (by simp [charsLtb, h']))
      · exact Or.inr (Or.inr (by simp [charsLtb, h]))

theorem strLtb_irrefl (s : String) : strLtb s s = false :=
  charsLtb_irrefl s.data

theorem strLtb_trans {s t u : String} (h1 : strLtb s t = true)
    (h2 : strLtb t u = true) : strLtb s u = true :=
  charsLtb_trans h1 h2

theorem strLtb_trichotomy (s t : String) :
    strLtb s t = true ∨ s = t ∨ strLtb t s = true := by
  rcases charsLtb_trichotomy s.data t.data with h | h | h
  · exact Or.inl h
  · exact Or.inr (Or.inl (String.ext h))
  · exact Or.inr (Or.inr h)

theorem keyLe_refl (a : String × Nat) : keyLe a a := Or.inr ⟨rfl, le_refl _⟩

theorem keyLe_total (a b : String × Nat) : keyLe a b ∨ keyLe b a := by
  rcases strLtb_trichotomy a.1 b.1 with h | h | h
  · exact Or.inl (Or.inl h)
  · rcases Nat.le_total a.2 b.2 with h2 | h2
    · exact Or.inl (Or.inr ⟨h, h2⟩)
    · exact Or.inr (Or.inr ⟨h.symm, h2⟩)
  · exact Or.inr (Or.inl h)

theorem keyLe_trans {a b c : String × Nat} (hab : keyLe a b) (hbc : keyLe b c) :
    keyLe a c := by
  rcases hab with h1 | ⟨h1, h1'⟩
  · rcases hbc with h2 | ⟨h2, _⟩
    · exact Or.inl (strLtb_trans h1 h2)
    · exact Or.inl (h2 ▸ h1)
  · rcases hbc with h2 | ⟨h2, h2'⟩
    · exact Or.inl (h1.symm ▸ h2)
    · exact Or.inr ⟨h1.trans h2, le_trans h1' h2'⟩

theorem keyLt_of_keyLe_of_keyLt {a b c : String × Nat} (hab : keyLe a b)
    (hbc : keyLt b c) : keyLt a c := by
  rcases hab with h1 | ⟨h1, h1'⟩
  · rcases hbc with h2 | ⟨h2, _⟩
    · exact Or.inl (strLtb_trans h1 h2)
    · exact Or.inl (h2 ▸ h1)
  · rcases hbc with h2 | ⟨h2, h2'⟩
    · exact Or.inl (h1.symm ▸ h2)
    · exact Or.inr ⟨h1.trans h2, lt_of_le_of_lt h1' h2'⟩

theorem keyLe_of_keyLt {a b : String × Nat} (h : keyLt a b) : keyLe a b := by
  rcases h with h | ⟨h, h'⟩
  · exact Or.inl h
  · exact Or.inr ⟨h, le_of_lt h'⟩

theorem keyLt_irrefl (a : String × Nat) : ¬ keyLt a a := by
  rintro (h | ⟨-, h⟩)
  · exact absurd h (by simp [strLtb_irrefl])
  · exact lt_irrefl _ h

theorem keyLt_of_keyLe_of_ne {a b : String × Nat} (hle : keyLe a b)
    (hne : a ≠ b) : keyLt a b := by
  rcases hle with h | ⟨h, h'⟩
  · exact Or.inl h
  · rcases lt_or_eq_of_le h' with h2 | h2
    · exact Or.inr ⟨h, h2⟩
    · exact absurd (Prod.ext h h2) hne

instance : IsTotal Row rowLe := ⟨fun a b => keyLe_total (rowKey a) (rowKey b)⟩

instance : IsTrans Row rowLe := ⟨fun _ _ _ => keyLe_trans⟩

theorem cursorTruthy_some {r : String} {n : Nat} (hr : r ≠ "") (hn : n ≠ 0) :
    cursorTruthy ⟨some r, some n⟩ = true := by
  have hre : r.isEmpty = false := by
    cases h : r.isEmpty
    · rfl
    · exact absurd ((String.isEmpty_iff r).mp h) hr
  simp [cursorTruthy, optStrTruthy, optNatTruthy, hre, hn]

theorem cursorClause_some {r : String} {n : Nat} (hr : r ≠ "") (hn : n ≠ 0)
    (row : Row) :
    cursorClause ⟨some r, some n⟩ row = sqlAfterCursor r n row := by
  unfold cursorClause
  rw [cursorTruthy_some hr hn]
  rfl

theorem cursorClause_initial (row : Row) :
    cursorClause initialState row = true := rfl

theorem sqlAfterCursor_iff {r : String} {n : Nat} {row : Row} :
    sqlAfterCursor r n row = true ↔ keyLt (r, n) (rowKey row) := by
  unfold sqlAfterCursor keyLt rowKey
  simp only [Bool.or_eq_true, Bool.and_eq_true, decide_eq_true_eq]
  constructor
  · rintro (h | ⟨h, h'⟩)
    · exact Or.inl h
    · exact Or.inr ⟨h.symm, h'⟩
  · rintro (h | ⟨h, h'⟩)
    · exact Or.inl h
    · exact Or.inr ⟨h.symm, h'⟩

theorem mem_fetchBatch {table : List Row} {st : MonitorState}
    {types : List String} {row : Row} :
    row ∈ fetchBatch table st types ↔
      row ∈ table ∧ rowPasses st types row = true := by
  unfold fetchBatch
  rw [(List.perm_insertionSort rowLe _).mem_iff, List.mem_filter]

theorem sorted_fetchBatch (table : List Row) (st : MonitorState)
    (types : List String) : (fetchBatch table st types).Sorted rowLe :=
  List.sorted_insertionSort rowLe _

theorem nodupKeys_fetchBatch {table : List Row} (st : MonitorState)
    (types : List String) (h : (table.map rowKey).Nodup) :
    ((fetchBatch table st types).map rowKey).Nodup := by
  have hperm := (List.perm_insertionSort rowLe
    (table.filter (rowPasses st types))).map rowKey
  have hsub := List.Sublist.map rowKey (List.filter_sublist (p := rowPasses st types) table)
  exact (List.Perm.nodup_iff hperm).mpr (List.Nodup.sublist hsub h)

theorem pairwiseLt_fetchBatch {table : List Row} (st : MonitorState)
    (types : List String) (h : (table.map rowKey).Nodup) :
    (fetchBatch table st types).Pairwise rowLt := by
  have hne : (fetchBatch table st types).Pairwise
      (fun a b => rowKey a ≠ rowKey b) :=
    List.pairwise_map.mp (nodupKeys_fetchBatch st types h)
  exact (List.Pairwise.and (sorted_fetchBatch table st types) hne).imp
    (fun hab => keyLt_of_keyLe_of_ne hab.1 hab.2)

theorem mem_of_getLast?_eq_some :
    ∀ {l : List Row} {a : Row}, l.getLast? = some a → a ∈ l
  | [x], a, h => by
      simp only [List.getLast?_singleton, Option.some.injEq] at h
      simp [h]
  | x :: y :: ys, a, h => by
      rw [List.getLast?_cons_cons] at h
      exact List.mem_cons_of_mem x (mem_of_getLast?_eq_some h)

theorem sorted_le_getLast :
    ∀ {l : List Row}, l.Sorted rowLe → ∀ {last : Row},
      l.getLast? = some last → ∀ b ∈ l, rowLe b last
  | [], _, _, h, _, _ => by simp at h
  | [x], _, last, h, b, hb => by
      simp only [List.getLast?_singleton, Option.some.injEq] at h
      simp only [List.mem_singleton] at hb
      subst h; subst hb
      exact keyLe_refl _
  | x :: y :: ys, hs, last, h, b, hb => by
      rw [List.getLast?_cons_cons] at h
      rcases List.mem_cons.mp hb with rfl | hb
      · exact List.rel_of_sorted_cons hs last (mem_of_getLast?_eq_some h)
      · exact sorted_le_getLast (List.Sorted.of_cons hs) h b hb

/-- Every row of a batch fetched with a truthy cursor `(r, n)` is strictly
after `(r, n)` in the receiver-then-sequence order. -/
theorem fetchBatch_after_cursor {r : String} {n : Nat} (hr : r ≠ "")
    (hn : n ≠ 0) {table : List Row} {types : List String} {row : Row}
    (hmem : row ∈ fetchBatch table ⟨some r, some n⟩ types) :
    keyLt (r, n) (rowKey row) := by
  have hpass := (mem_fetchBatch.mp hmem).2
  unfold rowPasses at hpass
  rw [cursorClause_some hr hn] at hpass
  simp only [Bool.and_eq_true] at hpass
  exact sqlAfterCursor_iff.mp hpass.1.2

theorem stateOK_processOneBatch {t : List Row} {types : List String}
    {st : MonitorState} {d : List Row} (hok : stateOK st d)
    (hval : validTable t) (hnd : (t.map rowKey).Nodup) :
    stateOK (processOneBatch t types st).1
      (d ++ (processOneBatch t types st).2) := by
  cases hb : (fetchBatch t st types).getLast? with
  | none =>
      simp only [processOneBatch, hb]
      simpa using hok
  | some last =>
      simp only [processOneBatch, hb]
      have hplt : (fetchBatch t st types).Pairwise rowLt :=
        pairwiseLt_fetchBatch st types hnd
      have hsor := sorted_fetchBatch t st types
      have hlastmem : last ∈ fetchBatch t st types := mem_of_getLast?_eq_some hb
      have hlval := hval last (mem_fetchBatch.mp hlastmem).1
      have hlelast : ∀ b ∈ fetchBatch t st types, rowLe b last :=
        sorted_le_getLast hsor hb
      obtain ⟨hpd, hrest⟩ := hok
      obtain ⟨lr, ln⟩ := st
      cases lr with
      | none =>
          cases ln with
          | none =>
              have hd : d = [] := hrest
              subst hd
              exact ⟨hplt, hlval.1, hlval.2, fun e he => hlelast e (by simpa using he)⟩
          | some n => exact hrest.elim
      | some r =>
          cases ln with
          | none => exact hrest.elim
          | some n =>
              obtain ⟨hr, hn, hbound⟩ := hrest
              have hafter : ∀ b ∈ fetchBatch t ⟨some r, some n⟩ types,
                  keyLt (r, n) (rowKey b) :=
                fun b hbm => fetchBatch_after_cursor hr hn hbm
              refine ⟨?_, hlval.1, hlval.2, ?_⟩
              · rw [List.pairwise_append]
                exact ⟨hpd, hplt, fun a ha b hbm =>
                  keyLt_of_keyLe_of_keyLt (hbound a ha) (hafter b hbm)⟩
              · intro e he
                rcases List.mem_append.mp he with he | he
                · exact keyLe_trans (hbound e he)
                    (keyLe_of_keyLt (hafter last hlastmem))
                · exact hlelast e he

theorem stateOK_runCycles {tables : Nat → List Row} {types : List String}
    (hval : ∀ i, validTable (tables i))
    (hnd : ∀ i, ((tables i).map rowKey).Nodup) :
    ∀ (n i : Nat) (st : MonitorState) (d : List Row), stateOK st d →
      stateOK (runCycles tables types n i st).1
        (d ++ (runCycles tables types n i st).2)
  | 0, i, st, d, hok => by simpa [runCycles] using hok
  | n + 1, i, st, d, hok => by
      have h1 := @stateOK_processOneBatch (tables i) types st d
        hok (hval i) (hnd i)
      have h2 := @stateOK_runCycles tables types hval hnd n (i + 1)
        (processOneBatch (tables i) types st).1
        (d ++ (processOneBatch (tables i) types st).2) h1
      simpa [runCycles, List.append_assoc] using h2

/-- C1: with a present cursor `(r, n)` (a stored receiver name and
sequence number that pass the code's presence test, i.e. non-empty and
non-zero) one fetch returns exactly the retained renderable rows that
satisfy the entry-type filter and are strictly greater than `(r, n)`
under the receiver-then-sequence total order — not a plain numeric
sequence comparison; with an absent cursor (the initial `None`/`None`
state) it returns all retained renderable rows subject only to the
entry-type filter. -/
theorem c1_idempotent_resume (table : List Row) (types : List String)
    (r : String) (n : Nat) (hr : r ≠ "") (hn : n ≠ 0) :
    (∀ row, row ∈ fetchBatch table ⟨some r, some n⟩ types ↔
        (row ∈ table ∧ row.syslog_event.isSome = true ∧
          typeClause types row = true) ∧ keyLt (r, n) (rowKey row)) ∧
    (∀ row, row ∈ fetchBatch table initialState types ↔
        row ∈ table ∧ row.syslog_event.isSome = true ∧
          typeClause types row = true) := by
  constructor
  · intro row
    rw [mem_fetchBatch]
    unfold rowPasses
    rw [cursorClause_some hr hn]
    simp only [Bool.and_eq_true]
    rw [sqlAfterCursor_iff]
    tauto
  · intro row
    rw [mem_fetchBatch]
    unfold rowPasses
    rw [cursorClause_initial]
    simp only [Bool.and_true, Bool.and_eq_true]

/-- Witness for C1 at spec scenario C: with cursor `("R1", 12)` the
rollover row `("R2", 1)` is selected, because the receiver-then-sequence
comparison (not a numeric sequence comparison) places it after the
cursor. -/
theorem c1_idempotent_resume_witness :
    rowC ∈ fetchBatch [rowA, rowC] ⟨some "R1", some 12⟩ [] ↔
      (rowC ∈ [rowA, rowC] ∧ rowC.syslog_event.isSome = true ∧
        typeClause [] rowC = true) ∧ keyLt ("R1", 12) (rowKey rowC) :=
  (c1_idempotent_resume [rowA, rowC] [] "R1" 12 (by decide) (by decide)).1 rowC

/-- C2: if a connection, query, or delivery error occurs during a cycle,
the cursor state after the cycle equals the cursor state before it. -/
theorem c2_no_loss_on_failure (table : List Row) (types : List String)
    (st : MonitorState) (f : Fault) (hf : f ≠ Fault.ok) :
    (runCycle table types f st).1 = st := by
  cases f with
  | ok => exact absurd rfl hf
  | connection => rfl
  | query => rfl
  | delivery k => rfl

/-- Witness for C2: a connection failure leaves the initial state
untouched. -/
theorem c2_no_loss_on_failure_witness :
    Fault.connection ≠ Fault.ok ∧
      (runCycle [rowA] [] Fault.connection initialState).1 = initialState :=
  ⟨by decide,
    c2_no_loss_on_failure [rowA] [] initialState Fault.connection (by decide)⟩

/-- C3: in any cycle the cursor either stays unchanged, or — only on the
fault-free path — is set to the `(receiver_name, sequence_number)` of the
last entry of the batch after the whole batch has been forwarded to the
sink; an empty batch never changes the cursor. -/
theorem c3_bookmark_after_full_delivery (table : List Row)
    (types : List String) (st : MonitorState) (f : Fault) :
    ((runCycle table types f st).1 ≠ st →
      f = Fault.ok ∧
        (runCycle table types f st).2 = fetchBatch table st types ∧
        ∃ last, (runCycle table types f st).2.getLast? = some last ∧
          (runCycle table types f st).1 =
            ⟨some last.receiver_name, some last.sequence_number⟩) ∧
    (fetchBatch table st types = [] → (runCycle table types f st).1 = st) := by
  cases f with
  | ok =>
      constructor
      · intro hne
        cases hb : (fetchBatch table st types).getLast? with
        | none =>
            exact absurd (by simp [runCycle, processOneBatch, hb]) hne
        | some last =>
            refine ⟨rfl, ?_, last, ?_, ?_⟩ <;>
              simp [runCycle, processOneBatch, hb]
      · intro hemp
        simp [runCycle, processOneBatch, hemp]
  | connection => exact ⟨fun h => absurd rfl h, fun _ => rfl⟩
  | query => exact ⟨fun h => absurd rfl h, fun _ => rfl⟩
  | delivery k => exact ⟨fun h => absurd rfl h, fun _ => rfl⟩

/-- Witness for C3: with an empty backend table the fault-free cycle
leaves the cursor unchanged. -/
theorem c3_bookmark_after_full_delivery_witness :
    fetchBatch [] initialState [] = [] ∧
      (runCycle [] [] Fault.ok initialState).1 = initialState :=
  ⟨by decide,
    (c3_bookmark_after_full_delivery [] [] initialState Fault.ok).2 (by decide)⟩

/-- C5: when the parsed entry-type filter is non-empty, every row of the
fetched batch has its `journal_entry_type` in the filter; when it is
empty, no entry-type restriction is applied: membership in the batch does
not depend on the entry type at all. -/
theorem c5_filter_correctness (table : List Row) (st : MonitorState)
    (s : String) :
    (journal_types_of s ≠ [] →
      ∀ row, row ∈ fetchBatch table st (journal_types_of s) →
        row.journal_entry_type ∈ journal_types_of s) ∧
    (journal_types_of s = [] →
      ∀ row, row ∈ fetchBatch table st (journal_types_of s) ↔
        row ∈ table ∧ row.syslog_event.isSome = true ∧
          cursorClause st row = true) := by
  constructor
  · intro hne row hmem
    have hpass := (mem_fetchBatch.mp hmem).2
    unfold rowPasses typeClause at hpass
    simp only [Bool.and_eq_true] at hpass
    have h2 := hpass.2
    rw [if_neg (by simpa [List.isEmpty_iff] using hne)] at h2
    exact of_decide_eq_true h2
  · intro hz row
    rw [mem_fetchBatch]
    unfold rowPasses typeClause
    rw [hz]
    simp only [List.isEmpty_nil, if_true, Bool.and_true, Bool.and_eq_true]

/-- Witness for C5: with configured filter string `"AF,CP"` the fetched
row's type `"AF"` is in the parsed filter list. -/
theorem c5_filter_correctness_witness :
    journal_types_of "AF,CP" ≠ [] ∧
      rowA.journal_entry_type ∈ journal_types_of "AF,CP" :=
  ⟨by decide,
    (c5_filter_correctness [rowA] initialState "AF,CP").1 (by decide) rowA
      (by decide)⟩

/-- C6: the severity translation is a pure total function on integers:
0, 1, 2 map to CRITICAL, 3 to ERROR, 4 to WARNING, 5 and 6 to INFO, 7 to
DEBUG, and every integer outside the table maps to INFO. -/
theorem c6_severity_translation :
    severityGet 0 = logging.CRITICAL ∧ severityGet 1 = logging.CRITICAL ∧
    severityGet 2 = logging.CRITICAL ∧ severityGet 3 = logging.ERROR ∧
    severityGet 4 = logging.WARNING ∧ severityGet 5 = logging.INFO ∧
    severityGet 6 = logging.INFO ∧ severityGet 7 = logging.DEBUG ∧
    ∀ s : Int, s ∉ SEVERITY_MAP.map Prod.fst →
      severityGet s = logging.INFO := by
  refine ⟨rfl, rfl, rfl, rfl, rfl, rfl, rfl, rfl, ?_⟩
  intro s hs
  simp only [SEVERITY_MAP, List.map_cons, List.map_nil, List.mem_cons,
    List.not_mem_nil, or_false, not_or] at hs
  obtain ⟨h0, h1, h2, h3, h4, h5, h6, h7⟩ := hs
  have e0 : (s == (0 : Int)) = false := beq_eq_false_iff_ne.mpr h0
  have e1 : (s == (1 : Int)) = false := beq_eq_false_iff_ne.mpr h1
  have e2 : (s == (2 : Int)) = false := beq_eq_false_iff_ne.mpr h2
  have e3 : (s == (3 : Int)) = false := beq_eq_false_iff_ne.mpr h3
  have e4 : (s == (4 : Int)) = false := beq_eq_false_iff_ne.mpr h4
  have e5 : (s == (5 : Int)) = false := beq_eq_false_iff_ne.mpr h5
  have e6 : (s == (6 : Int)) = false := beq_eq_false_iff_ne.mpr h6
  have e7 : (s == (7 : Int)) = false := beq_eq_false_iff_ne.mpr h7
  unfold severityGet SEVERITY_MAP
  simp only [List.lookup_cons, e0, e1, e2, e3, e4, e5, e6, e7,
    List.lookup_nil, Option.getD_none]

/-- Witness for C6: the unmapped severity code 99 falls back to INFO. -/
theorem c6_severity_translation_witness : severityGet 99 = logging.INFO :=
  (c6_severity_translation).2.2.2.2.2.2.2.2 99 (by decide)

/-- C10: the cursor-present test uses Python truthiness of both stored
fields, so a stored sequence number 0 (with any receiver name) or a
stored empty receiver name (with any sequence number) makes the next
fetch omit the cursor predicate entirely and behave exactly as if the
cursor were absent, re-fetching all retained entries. -/
theorem c10_truthiness_cursor_dropped (table : List Row)
    (types : List String) (r : String) (n : Nat) :
    fetchBatch table ⟨some r, some 0⟩ types =
        fetchBatch table initialState types ∧
      fetchBatch table ⟨some "", some n⟩ types =
        fetchBatch table initialState types := by
  have key : ∀ st1 : MonitorState, cursorTruthy st1 = false →
      fetchBatch table st1 types = fetchBatch table initialState types := by
    intro st1 h1
    unfold fetchBatch
    apply congrArg
    apply List.filter_congr
    intro row _
    have h2 : cursorTruthy initialState = false := rfl
    simp only [rowPasses, cursorClause, h1, h2, Bool.false_eq_true, if_false]
  constructor
  · exact key _ (by simp [cursorTruthy, optStrTruthy, optNatTruthy])
  · exact key _ rfl

/-- C4: starting from the initial absent cursor, over any number of
consecutive fault-free cycles the concatenation of the delivered batches
(each batch ordered ascending and fetched strictly after the previous
cursor) is strictly increasing in the receiver-then-sequence order, and
hence no entry is delivered twice; the backend tables are assumed
well-formed (non-empty receiver names, non-zero sequence numbers — the
edge C10 documents — and duplicate-free position keys per fetch). -/
theorem c4_cross_cycle_ordering (tables : Nat → List Row)
    (types : List String) (n : Nat)
    (hval : ∀ i, validTable (tables i))
    (hnd : ∀ i, ((tables i).map rowKey).Nodup) :
    ((runCycles tables types n 0 initialState).2).Pairwise rowLt ∧
      ((runCycles tables types n 0 initialState).2).Nodup := by
  have h0 : stateOK initialState [] := ⟨List.Pairwise.nil, rfl⟩
  have h := @stateOK_runCycles tables types hval hnd n 0 initialState [] h0
  rw [List.nil_append] at h
  refine ⟨h.1, ?_⟩
  have hne : ∀ {a b : Row}, rowLt a b → a ≠ b := by
    intro a b hab heq
    exact keyLt_irrefl _ (heq ▸ hab)
  exact h.1.imp hne

/-- Witness for C4: two fault-free cycles over a two-row backend deliver a
strictly increasing, duplicate-free log. -/
theorem c4_cross_cycle_ordering_witness :
    ((runCycles (fun _ => [rowA, rowB]) [] 2 0 initialState).2).Pairwise
        rowLt ∧
      ((runCycles (fun _ => [rowA, rowB]) [] 2 0 initialState).2).Nodup :=
  c4_cross_cycle_ordering (fun _ => [rowA, rowB]) [] 2
    (fun i => (by decide : validTable [rowA, rowB]))
    (fun i => (by decide : (List.map rowKey [rowA, rowB]).Nodup))

/-- C7: at startup, when contiguous-index discovery (which skips
incomplete entries and stops at the first missing host index) finds zero
valid host configurations, the process reports a configuration error,
starts no monitors, and exits with the non-zero code 1; when at least one
valid configuration exists, exactly one monitor is started per discovered
configuration. -/
theorem c7_startup_config (env : String → Option String) (fuel : Nat) :
    (discoverFrom env fuel 1 = [] →
      mainStartup env fuel = StartupResult.configError 1 ∧
        startedMonitors (mainStartup env fuel) = []) ∧
    (discoverFrom env fuel 1 ≠ [] →
      mainStartup env fuel =
          StartupResult.running (discoverFrom env fuel 1) ∧
        startedMonitors (mainStartup env fuel) = discoverFrom env fuel 1) ∧
    (∀ code, mainStartup env fuel = StartupResult.configError code →
      code ≠ 0) ∧
    (∀ i, envTruthy env ("IBMI_HOST_" ++ toString i) = false →
      discoverFrom env (fuel + 1) i = []) ∧
    (∀ i, envTruthy env ("IBMI_HOST_" ++ toString i) = true →
      (envTruthy env ("IBMI_USER_" ++ toString i) &&
        envTruthy env ("IBMI_PASSWORD_" ++ toString i) &&
        envTruthy env ("IBMI_DRIVER_" ++ toString i)) = false →
      discoverFrom env (fuel + 1) i = discoverFrom env fuel (i + 1)) := by
  refine ⟨?_, ?_, ?_, ?_, ?_⟩
  · intro hz
    unfold mainStartup
    rw [hz]
    exact ⟨rfl, rfl⟩
  · intro hnz
    unfold mainStartup
    rw [if_neg (by simpa [List.isEmpty_iff] using hnz)]
    exact ⟨rfl, rfl⟩
  · intro code hcode
    unfold mainStartup at hcode
    by_cases hz : (discoverFrom env fuel 1).isEmpty
    · rw [if_pos hz] at hcode
      injection hcode with h
      subst h
      decide
    · rw [if_neg hz] at hcode
      exact StartupResult.noConfusion hcode
  · intro i hi
    simp [discoverFrom, hi]
  · intro i hhost hmiss
    simp [discoverFrom, hhost, hmiss]

/-- Witness for C7: an empty environment yields the fatal zero-config
path, and an environment with one complete host at index 1 starts
exactly the discovered monitors. -/
theorem c7_startup_config_witness :
    (mainStartup envEmpty 1 = StartupResult.configError 1 ∧
      startedMonitors (mainStartup envEmpty 1) = []) ∧
      (mainStartup envOneHost 2 =
          StartupResult.running (discoverFrom envOneHost 2 1) ∧
        startedMonitors (mainStartup envOneHost 2) =
          discoverFrom envOneHost 2 1) :=
  ⟨(c7_startup_config envEmpty 1).1 (by decide),
    (c7_startup_config envOneHost 2).2.1 (by decide)⟩

/-- Counterexample to C8 as stated: with two retained rows and an error
raised during the row loop after the first row has already been forwarded
to the sink, the cycle delivers exactly one entry — neither the full
ordered batch nor nothing. -/
theorem c8_all_or_nothing_counterexample :
    ¬ ((runCycle [rowA, rowB] [] (Fault.delivery 1) initialState).2 =
          fetchBatch [rowA, rowB] initialState [] ∨
        (runCycle [rowA, rowB] [] (Fault.delivery 1) initialState).2 =
          []) := by
  decide

/-- C8 amended: a cycle either completes fault-free and delivers exactly
the full ordered batch, or an error occurs, in which case the entries
delivered before the failure form a (possibly empty) prefix of the
ordered batch — the loop forwards rows as they stream — and the cursor is
unchanged, so no partial progress is recorded. -/
theorem c8_all_or_nothing_amended (table : List Row) (types : List String)
    (st : MonitorState) (f : Fault) :
    (f = Fault.ok →
      (runCycle table types f st).2 = fetchBatch table st types) ∧
    (f ≠ Fault.ok → (runCycle table types f st).1 = st) ∧
    (∃ k, (runCycle table types f st).2 =
      (fetchBatch table st types).take k) := by
  cases f with
  | ok =>
      have hdel : (runCycle table types Fault.ok st).2 =
          fetchBatch table st types := by
        cases hb : (fetchBatch table st types).getLast? with
        | none =>
            have hemp : fetchBatch table st types = [] := by simpa using hb
            simp [runCycle, processOneBatch, hb, hemp]
        | some last => simp [runCycle, processOneBatch, hb]
      exact ⟨fun _ => hdel, fun h => absurd rfl h,
        ⟨(fetchBatch table st types).length, by rw [hdel, List.take_length]⟩⟩
  | connection =>
      exact ⟨fun h => Fault.noConfusion h, fun _ => rfl,
        ⟨0, by simp [runCycle]⟩⟩
  | query =>
      exact ⟨fun h => Fault.noConfusion h, fun _ => rfl,
        ⟨0, by simp [runCycle]⟩⟩
  | delivery k =>
      exact ⟨fun h => Fault.noConfusion h, fun _ => rfl, ⟨k, rfl⟩⟩

/-- Witness for C8 amended: the fault-free cycle delivers the full
ordered batch. -/
theorem c8_all_or_nothing_amended_witness :
    (runCycle [rowA, rowB] [] Fault.ok initialState).2 =
      fetchBatch [rowA, rowB] initialState [] :=
  (c8_all_or_nothing_amended [rowA, rowB] [] initialState Fault.ok).1 rfl

/-- C9: the polling loop terminates only when the shutdown flag is
observed set, never as a consequence of a cycle error: a terminated run
observed the flag at its final check, a run whose flag is never set does
not terminate, and the check at which the loop exits is independent of
the injected faults — after any error the loop proceeds to the wait and
runs the next cycle. -/
theorem c9_loop_stops_only_on_shutdown (flag : Nat → Bool)
    (tables : Nat → List Row) (types : List String)
    (faults faults2 : Nat → Fault) :
    (∀ fuel k st p,
      runLoop flag tables types faults fuel k st = some p →
        flag p.1 = true) ∧
    ((∀ k, flag k = false) → ∀ fuel k st,
      runLoop flag tables types faults fuel k st = none) ∧
    (∀ fuel k st st2,
      (runLoop flag tables types faults fuel k st).map Prod.fst =
        (runLoop flag tables types faults2 fuel k st2).map Prod.fst) := by
  refine ⟨?_, ?_, ?_⟩
  · intro fuel
    induction fuel with
    | zero =>
        intro k st p h
        exact absurd h (by simp [runLoop])
    | succ m ih =>
        intro k st p h
        simp only [runLoop] at h
        by_cases hf : flag k = true
        · rw [if_pos hf] at h
          cases h
          exact hf
        · rw [if_neg hf] at h
          exact ih (k + 1) _ p h
  · intro hnever fuel
    induction fuel with
    | zero => intro k st; rfl
    | succ m ih =>
        intro k st
        simp only [runLoop, hnever k, Bool.false_eq_true, if_false]
        exact ih (k + 1) _
  · intro fuel
    induction fuel with
    | zero => intro k st st2; rfl
    | succ m ih =>
        intro k st st2
        simp only [runLoop]
        by_cases hf : flag k = true
        · rw [if_pos hf, if_pos hf]
          rfl
        · rw [if_neg hf, if_neg hf]
          exact ih (k + 1) _ _

/-- Witness for C9: with the shutdown flag never set, the loop is still
running after three checks. -/
theorem c9_loop_stops_only_on_shutdown_witness :
    runLoop (fun _ => false) (fun _ => [rowA]) [] (fun _ => Fault.ok) 3 0
      initialState = none :=
  (c9_loop_stops_only_on_shutdown (fun _ => false) (fun _ => [rowA]) []
    (fun _ => Fault.ok) (fun _ => Fault.ok)).2.1 (fun _ => rfl) 3 0
    initialState

end SyslogIbmi
